import Mathlib

/-!
Shallow embedding of the storytelling-spectrum progression engine
(`src/lib/storytellingGame.ts`, appearing as `src/unnamed/part_005`).

Numbers carried by signal profiles are modelled as rationals (the source
operates on JS numbers; all arithmetic here is addition, subtraction,
multiplication by decimal constants, `Math.min`/`Math.max` clamping and
`Math.round`).  The static dictionary / rules JSON documents are not part
of the source tree, so every operation is parameterised over the loaded
dictionary and rules, exactly the data the TypeScript module closes over.
JS `Map` lookup built from an id-keyed list is modelled by a left fold in
which later bindings overwrite earlier ones.  `getNode`, which throws on a
missing spine node, is modelled as an `Option`, `none` standing for the
thrown error.
-/

namespace StorytellingGame

/-- The 4-metric signal vector (`SignalProfile` in `@/types/storytelling`). -/
structure SignalProfile where
  fidelity : ℚ
  persuasion : ℚ
  reach : ℚ
  distortion : ℚ
deriving DecidableEq, Repr

/-- The 3-axis display vector produced by `projectSignalDeltaToImpactAxes`
(each component is the result of a `Math.round`, hence an integer). -/
structure ImpactAxes where
  sensory_activation : ℤ
  ease_of_consumption : ℤ
  creation_effort : ℤ
deriving DecidableEq, Repr

/-- One point on the fixed spine (`SpineNode`), restricted to the fields the
progression / metric functions read. -/
structure SpineNode where
  id : String
  label : String
  signal_profile : SignalProfile
deriving DecidableEq, Repr

/-- A craftable combination recipe (`CombinationRecipe`), restricted to the
fields the reducer reads. -/
structure CombinationRecipe where
  id : String
  label : String
  inputs : List String
  output : String
  metric_delta : SignalProfile
deriving DecidableEq, Repr

/-- A one-shot distribution modifier (`DistributionModifier`). -/
structure DistributionModifier where
  id : String
  label : String
  metric_delta : SignalProfile
deriving DecidableEq, Repr

/-- The action tag of a history entry (`HistoryEvent["action"]`). -/
inductive HistoryAction where
  | advance
  | combination
  | modifier
  | reflection
  | reset
deriving DecidableEq, Repr

/-- One entry of the run's history log (`HistoryEvent`). -/
structure HistoryEvent where
  turn : ℕ
  action : HistoryAction
  detail : String
deriving DecidableEq, Repr

/-- The immutable per-run state (`StorytellingRunState`). -/
structure StorytellingRunState where
  currentNodeId : String
  visitedNodeIds : List String
  craftedCombinationIds : List String
  craftedArtifactIds : List String
  appliedModifierIds : List String
  reflections : List String
  history : List HistoryEvent
  turn : ℕ
deriving DecidableEq, Repr

/-- The parts of the static dictionary document the engine reads
(`StorytellingDictionary`; `distribution` is `variable_vocabulary.distribution`). -/
structure StorytellingDictionary where
  core_spine : List SpineNode
  combination_layer : List CombinationRecipe
  distribution : List DistributionModifier
deriving DecidableEq, Repr

/-- The scoring clamp range (`rules.scoring.range`). -/
structure ScoringRange where
  min : ℚ
  max : ℚ
deriving DecidableEq, Repr

/-- The parts of the static rules document the engine reads
(`StorytellingRules`; `start_node` is `rules.run.start_node`, `range` is
`rules.scoring.range`). -/
structure StorytellingRules where
  start_node : String
  progression_edges : List (String × String)
  range : ScoringRange
deriving DecidableEq, Repr

/-- Source `Math.min(max, Math.max(min, value))`. -/
def clamp (value mn mx : ℚ) : ℚ :=
  min mx (max mn value)

/-- Source `Math.round` on a rational: JS rounds half-way cases toward positive
infinity, i.e. `Math.round x = ⌊x + 1/2⌋`. -/
def jsRound (q : ℚ) : ℤ :=
  ⌊q + 1 / 2⌋

/-- Lookup in a JS `Map` built with `new Map(list.map(x => [key x, x]))`:
entries are inserted left to right, so a later binding for the same key
overwrites an earlier one. -/
def mapGet {α : Type} (pairs : List (String × α)) (k : String) : Option α :=
  pairs.foldl (fun acc p => if p.1 = k then some p.2 else acc) none

/-- The `spineById` map. -/
def spineById (dict : StorytellingDictionary) (k : String) : Option SpineNode :=
  mapGet (dict.core_spine.map fun node => (node.id, node)) k

/-- The `combinationsById` map. -/
def combinationsById (dict : StorytellingDictionary) (k : String) : Option CombinationRecipe :=
  mapGet (dict.combination_layer.map fun combo => (combo.id, combo)) k

/-- The `modifiersById` map. -/
def modifiersById (dict : StorytellingDictionary) (k : String) : Option DistributionModifier :=
  mapGet (dict.distribution.map fun modifier => (modifier.id, modifier)) k

/-- Source `getNode`: looks a node up in `spineById`; the source throws
`Missing spine node` when absent, modelled by `none`. -/
def getNode (dict : StorytellingDictionary) (nodeId : String) : Option SpineNode :=
  spineById dict nodeId

/-- Source `getNextNodeId`: the target of the first progression edge leaving
`currentNodeId`, or `null`. -/
def getNextNodeId (rules : StorytellingRules) (currentNodeId : String) : Option String :=
  (rules.progression_edges.find? fun e => e.1 = currentNodeId).map fun e => e.2

/-- Source `hasIngredient`: the id has been visited as a stage or produced as an
artifact. -/
def hasIngredient (state : StorytellingRunState) (ingredientId : String) : Bool :=
  state.visitedNodeIds.contains ingredientId || state.craftedArtifactIds.contains ingredientId

/-- Component-wise addition of a metric delta onto a profile (the
`metricKeys.forEach` accumulation loops). -/
def addDelta (p d : SignalProfile) : SignalProfile where
  fidelity := p.fidelity + d.fidelity
  persuasion := p.persuasion + d.persuasion
  reach := p.reach + d.reach
  distortion := p.distortion + d.distortion

/-- The final `metricKeys.forEach` clamping loop of
`computeCurrentSignalProfile`. -/
def clampProfile (r : ScoringRange) (p : SignalProfile) : SignalProfile where
  fidelity := clamp p.fidelity r.min r.max
  persuasion := clamp p.persuasion r.min r.max
  reach := clamp p.reach r.min r.max
  distortion := clamp p.distortion r.min r.max

/-- Source `projectSignalDeltaToImpactAxes`: the fixed linear transform from the
4-metric signal space onto the 3-axis display space, `Math.round`ed. -/
def projectSignalDeltaToImpactAxes (delta : SignalProfile) : ImpactAxes where
  sensory_activation :=
    jsRound (delta.reach * (0.8 : ℚ) + delta.persuasion * (0.35 : ℚ) + delta.distortion * (0.2 : ℚ))
  ease_of_consumption :=
    jsRound (delta.reach * (0.55 : ℚ) + delta.persuasion * (0.4 : ℚ)
      - delta.distortion * (0.3 : ℚ) + delta.fidelity * (0.25 : ℚ))
  creation_effort :=
    jsRound (delta.fidelity * (0.5 : ℚ) - delta.persuasion * (0.2 : ℚ)
      - delta.reach * (0.25 : ℚ) - delta.distortion * (0.15 : ℚ))

/-- One iteration of the crafted-combination accumulation loop of
`computeCurrentSignalProfile`: an unknown id leaves the profile untouched
(the `if (!combo) return` early exit). -/
def comboStep (dict : StorytellingDictionary) (profile : SignalProfile) (comboId : String) :
    SignalProfile :=
  match combinationsById dict comboId with
  | none => profile
  | some combo => addDelta profile combo.metric_delta

/-- One iteration of the applied-modifier accumulation loop of
`computeCurrentSignalProfile`: an unknown id leaves the profile untouched. -/
def modifierStep (dict : StorytellingDictionary) (profile : SignalProfile) (modifierId : String) :
    SignalProfile :=
  match modifiersById dict modifierId with
  | none => profile
  | some modifier => addDelta profile modifier.metric_delta

/-- Source `computeCurrentSignalProfile`: base profile of the current node, plus
the metric delta of every crafted combination (in crafted order), plus the
metric delta of every applied modifier (in applied order), each final component
clamped to `rules.scoring.range`.  `none` models the `Missing spine node`
throw of `getNode`. -/
def computeCurrentSignalProfile (dict : StorytellingDictionary) (rules : StorytellingRules)
    (state : StorytellingRunState) : Option SignalProfile :=
  (getNode dict state.currentNodeId).map fun node =>
    clampProfile rules.range
      (state.appliedModifierIds.foldl (modifierStep dict)
        (state.craftedCombinationIds.foldl (comboStep dict) node.signal_profile))

/-- Source `createInitialState`. -/
def createInitialState (rules : StorytellingRules) : StorytellingRunState where
  currentNodeId := rules.start_node
  visitedNodeIds := [rules.start_node]
  craftedCombinationIds := []
  craftedArtifactIds := []
  appliedModifierIds := []
  reflections := []
  history := []
  turn := 0

/-- Source `pushHistory`: append one history entry stamped with the next turn number
and increment the turn counter. -/
def pushHistory (state : StorytellingRunState) (action : HistoryAction) (detail : String) :
    StorytellingRunState :=
  { state with
    history := state.history ++ [⟨state.turn + 1, action, detail⟩]
    turn := state.turn + 1 }

/-- The hard-coded rejection message of `advanceOneStep`. -/
def noAdvanceDetail : String :=
  "Already at the end node (Math). No further advance possible."

/-- Source `advanceOneStep`: no outgoing edge logs a rejection; otherwise move to the
edge target, record it as visited when new, and log `from -> to`.  `none`
models the `Missing spine node` throw of the two `getNode` calls. -/
def advanceOneStep (dict : StorytellingDictionary) (rules : StorytellingRules)
    (state : StorytellingRunState) : Option StorytellingRunState :=
  match getNextNodeId rules state.currentNodeId with
  | none => some (pushHistory state .advance noAdvanceDetail)
  | some nextNodeId =>
    match getNode dict state.currentNodeId, getNode dict nextNodeId with
    | some current, some next =>
      some (pushHistory
        { state with
          currentNodeId := nextNodeId
          visitedNodeIds :=
            if state.visitedNodeIds.contains nextNodeId then state.visitedNodeIds
            else state.visitedNodeIds ++ [nextNodeId] }
        .advance
        (current.label ++ " -> " ++ next.label))
    | _, _ => none

/-- Source `craftCombination`: unknown id, already-crafted id and missing inputs each
log a rejection; otherwise record the recipe as crafted, record its output
artifact when new, and log the craft. -/
def craftCombination (dict : StorytellingDictionary) (state : StorytellingRunState)
    (combinationId : String) : StorytellingRunState :=
  match combinationsById dict combinationId with
  | none => pushHistory state .combination ("Unknown combination: " ++ combinationId)
  | some combo =>
    if state.craftedCombinationIds.contains combinationId then
      pushHistory state .combination (combo.label ++ " already crafted.")
    else
      let missing := combo.inputs.filter fun inputId => !hasIngredient state inputId
      if missing.length > 0 then
        pushHistory state .combination
          (combo.label ++ " blocked. Missing inputs: " ++ String.intercalate ", " missing ++ ".")
      else
        pushHistory
          { state with
            craftedCombinationIds := state.craftedCombinationIds ++ [combinationId]
            craftedArtifactIds :=
              if state.craftedArtifactIds.contains combo.output then state.craftedArtifactIds
              else state.craftedArtifactIds ++ [combo.output] }
          .combination
          (combo.label ++ " crafted -> " ++ combo.output)

/-- Source `applyModifier`: unknown id and already-applied id each log a rejection;
otherwise record the modifier as applied and log it. -/
def applyModifier (dict : StorytellingDictionary) (state : StorytellingRunState)
    (modifierId : String) : StorytellingRunState :=
  match modifiersById dict modifierId with
  | none => pushHistory state .modifier ("Unknown modifier: " ++ modifierId)
  | some modifier =>
    if state.appliedModifierIds.contains modifierId then
      pushHistory state .modifier (modifier.label ++ " already applied.")
    else
      pushHistory
        { state with appliedModifierIds := state.appliedModifierIds ++ [modifierId] }
        .modifier
        ("Distribution modifier applied: " ++ modifier.label)

/-- JS `String.prototype.trim`: drop leading and trailing whitespace. -/
def jsTrim (s : String) : String :=
  String.mk (((s.toList.dropWhile Char.isWhitespace).reverse.dropWhile Char.isWhitespace).reverse)

/-- Source `addReflection`: a submission that trims to the empty string is a silent
no-op; otherwise the trimmed text is appended to `reflections` and logged
verbatim. -/
def addReflection (state : StorytellingRunState) (reflection : String) : StorytellingRunState :=
  let trimmed := jsTrim reflection
  if trimmed = "" then state
  else
    pushHistory { state with reflections := state.reflections ++ [trimmed] } .reflection trimmed

/-- Source `resetRun`: a fresh initial state whose history holds the single synthetic
reset entry. -/
def resetRun (rules : StorytellingRules) : StorytellingRunState :=
  { createInitialState rules with
    history := [⟨0, .reset, "Run reset to Thought."⟩] }

/-! Concrete configuration and states used to instantiate the theorems. -/

/-- A concrete spine node. -/
def nodeThought : SpineNode :=
  ⟨"thought", "Thought", ⟨10, 20, 30, 5⟩⟩

/-- A concrete spine node. -/
def nodeText : SpineNode :=
  ⟨"text", "Text", ⟨40, 15, 25, 10⟩⟩

/-- A concrete terminal spine node. -/
def nodeMath : SpineNode :=
  ⟨"math", "Math", ⟨95, 60, 70, 2⟩⟩

/-- A concrete recipe with a deliberately huge metric delta. -/
def recipeR1 : CombinationRecipe :=
  ⟨"R1", "Essay", ["thought", "text"], "artifact_essay", ⟨400, -300, 12, 7⟩⟩

/-- A concrete modifier with a deliberately huge metric delta. -/
def modifierM1 : DistributionModifier :=
  ⟨"M1", "Broadcast", ⟨-500, 900, 35, -20⟩⟩

/-- A concrete three-node dictionary. -/
def testDict : StorytellingDictionary :=
  ⟨[nodeThought, nodeText, nodeMath], [recipeR1], [modifierM1]⟩

/-- Concrete rules: the spine thought -> text -> math, clamp range [0, 100]. -/
def testRules : StorytellingRules :=
  ⟨"thought", [("thought", "text"), ("text", "math")], ⟨0, 100⟩⟩

/-- A concrete state resting at the terminal node `math`. -/
def terminalState : StorytellingRunState :=
  ⟨"math", ["thought", "text", "math"], [], [], [], [], [], 0⟩

/-- A concrete state that has crafted the big recipe and applied the big
modifier, and additionally records ids unknown to the dictionary. -/
def loadedState : StorytellingRunState :=
  ⟨"text", ["thought", "text"], ["R1", "ghostCombo"], ["artifact_essay"],
    ["M1", "ghostModifier"], [], [], 2⟩

/-- The run states reachable through the public reducer operations, starting
from the initial state or from a reset.  The advance step is conditioned on
the call returning (not hitting the modelled `Missing spine node` throw). -/
inductive Reaches (dict : StorytellingDictionary) (rules : StorytellingRules) :
    StorytellingRunState → Prop where
  | init : Reaches dict rules (createInitialState rules)
  | reset : Reaches dict rules (resetRun rules)
  | advance {s s' : StorytellingRunState} : Reaches dict rules s →
      advanceOneStep dict rules s = some s' → Reaches dict rules s'
  | craft {s : StorytellingRunState} (cid : String) : Reaches dict rules s →
      Reaches dict rules (craftCombination dict s cid)
  | modify {s : StorytellingRunState} (mid : String) : Reaches dict rules s →
      Reaches dict rules (applyModifier dict s mid)
  | reflect {s : StorytellingRunState} (text : String) : Reaches dict rules s →
      Reaches dict rules (addReflection s text)

/-- A concrete state that has advanced to `text`; both inputs of `recipeR1`
are visited and nothing has been crafted yet. -/
def readyState : StorytellingRunState :=
  ⟨"text", ["thought", "text"], [], [], [], [], [], 0⟩

/-- The ready state after one successful craft of `R1`. -/
def craftedOnceState : StorytellingRunState :=
  ⟨"text", ["thought", "text"], ["R1"], ["artifact_essay"], [], [],
    [⟨1, HistoryAction.combination, "Essay crafted -> artifact_essay"⟩], 1⟩

/-- The state produced by one advance from the initial test state. -/
def advancedOnce : StorytellingRunState :=
  ⟨"text", ["thought", "text"], [], [], [], [],
    [⟨1, HistoryAction.advance, "Thought -> Text"⟩], 1⟩

/-- The clamped signal profile of `loadedState` under the test configuration:
base ⟨40, 15, 25, 10⟩ of `text`, plus the `R1` delta ⟨400, -300, 12, 7⟩, plus
the `M1` delta ⟨-500, 900, 35, -20⟩, unknown ids skipped, clamped to [0, 100]. -/
def loadedProfile : SignalProfile :=
  ⟨0, 100, 72, 0⟩

/-! Characterizations of each branch of the reducer operations, used
throughout the proofs below. -/

theorem craftCombination_unknown (dict : StorytellingDictionary) (s : StorytellingRunState)
    (cid : String) (h : combinationsById dict cid = none) :
    craftCombination dict s cid =
      pushHistory s HistoryAction.combination ("Unknown combination: " ++ cid) := by
  simp [craftCombination, h]

theorem craftCombination_already (dict : StorytellingDictionary) (s : StorytellingRunState)
    (cid : String) (combo : CombinationRecipe) (h : combinationsById dict cid = some combo)
    (hmem : cid ∈ s.craftedCombinationIds) :
    craftCombination dict s cid =
      pushHistory s HistoryAction.combination (combo.label ++ " already crafted.") := by
  simp [craftCombination, h, hmem]

theorem craftCombination_blocked (dict : StorytellingDictionary) (s : StorytellingRunState)
    (cid : String) (combo : CombinationRecipe) (h : combinationsById dict cid = some combo)
    (hmem : cid ∉ s.craftedCombinationIds)
    (hlen : 0 < (combo.inputs.filter fun inputId => !hasIngredient s inputId).length) :
    craftCombination dict s cid =
      pushHistory s HistoryAction.combination (combo.label ++ " blocked. Missing inputs: " ++
        String.intercalate ", " (combo.inputs.filter fun inputId => !hasIngredient s inputId)
        ++ ".") := by
  simp [craftCombination, h, hmem, hlen]

theorem craftCombination_success (dict : StorytellingDictionary) (s : StorytellingRunState)
    (cid : String) (combo : CombinationRecipe) (h : combinationsById dict cid = some combo)
    (hmem : cid ∉ s.craftedCombinationIds)
    (hnil : (combo.inputs.filter fun inputId => !hasIngredient s inputId) = []) :
    craftCombination dict s cid =
      pushHistory
        { s with
          craftedCombinationIds := s.craftedCombinationIds ++ [cid]
          craftedArtifactIds :=
            if s.craftedArtifactIds.contains combo.output then s.craftedArtifactIds
            else s.craftedArtifactIds ++ [combo.output] }
        HistoryAction.combination (combo.label ++ " crafted -> " ++ combo.output) := by
  simp [craftCombination, h, hmem, hnil]

theorem applyModifier_unknown (dict : StorytellingDictionary) (s : StorytellingRunState)
    (mid : String) (h : modifiersById dict mid = none) :
    applyModifier dict s mid =
      pushHistory s HistoryAction.modifier ("Unknown modifier: " ++ mid) := by
  simp [applyModifier, h]

theorem applyModifier_already (dict : StorytellingDictionary) (s : StorytellingRunState)
    (mid : String) (modifier : DistributionModifier) (h : modifiersById dict mid = some modifier)
    (hmem : mid ∈ s.appliedModifierIds) :
    applyModifier dict s mid =
      pushHistory s HistoryAction.modifier (modifier.label ++ " already applied.") := by
  simp [applyModifier, h, hmem]

theorem applyModifier_fresh (dict : StorytellingDictionary) (s : StorytellingRunState)
    (mid : String) (modifier : DistributionModifier) (h : modifiersById dict mid = some modifier)
    (hmem : mid ∉ s.appliedModifierIds) :
    applyModifier dict s mid =
      pushHistory { s with appliedModifierIds := s.appliedModifierIds ++ [mid] }
        HistoryAction.modifier ("Distribution modifier applied: " ++ modifier.label) := by
  simp [applyModifier, h, hmem]

theorem advanceOneStep_terminal (dict : StorytellingDictionary) (rules : StorytellingRules)
    (s : StorytellingRunState) (h : getNextNodeId rules s.currentNodeId = none) :
    advanceOneStep dict rules s =
      some (pushHistory s HistoryAction.advance noAdvanceDetail) := by
  simp [advanceOneStep, h]

theorem advanceOneStep_edge (dict : StorytellingDictionary) (rules : StorytellingRules)
    (s : StorytellingRunState) (nid : String) (current next : SpineNode)
    (hnext : getNextNodeId rules s.currentNodeId = some nid)
    (hcur : getNode dict s.currentNodeId = some current)
    (hnode : getNode dict nid = some next) :
    advanceOneStep dict rules s =
      some (pushHistory
        { s with
          currentNodeId := nid
          visitedNodeIds :=
            if s.visitedNodeIds.contains nid then s.visitedNodeIds
            else s.visitedNodeIds ++ [nid] }
        HistoryAction.advance (current.label ++ " -> " ++ next.label)) := by
  simp [advanceOneStep, hnext, hcur, hnode]

/-- Inversion for a successful advance call: the crafted / applied lists are
never touched, and the new current node is recorded as visited. -/
theorem advanceOneStep_inversion (dict : StorytellingDictionary) (rules : StorytellingRules)
    (s s' : StorytellingRunState) (h : advanceOneStep dict rules s = some s') :
    ((s'.currentNodeId = s.currentNodeId ∧ s'.visitedNodeIds = s.visitedNodeIds) ∨
      (∃ nid, s'.currentNodeId = nid ∧
        s'.visitedNodeIds =
          if s.visitedNodeIds.contains nid then s.visitedNodeIds
          else s.visitedNodeIds ++ [nid])) ∧
    s'.craftedCombinationIds = s.craftedCombinationIds ∧
    s'.craftedArtifactIds = s.craftedArtifactIds ∧
    s'.appliedModifierIds = s.appliedModifierIds := by
  rcases hnext : getNextNodeId rules s.currentNodeId with _ | nid
  · rw [advanceOneStep_terminal dict rules s hnext] at h
    cases h
    exact ⟨Or.inl ⟨rfl, rfl⟩, rfl, rfl, rfl⟩
  · rcases hcur : getNode dict s.currentNodeId with _ | current
    · rcases hnode : getNode dict nid with _ | next <;>
        simp [advanceOneStep, hnext, hcur, hnode] at h
    · rcases hnode : getNode dict nid with _ | next
      · simp [advanceOneStep, hnext, hcur, hnode] at h
      · rw [advanceOneStep_edge dict rules s nid current next hnext hcur hnode] at h
        cases h
        exact ⟨Or.inr ⟨nid, rfl, rfl⟩, rfl, rfl, rfl⟩

/-- Inversion for a craft call: current node, visited stages and applied
modifiers are never touched; the crafted lists either stay unchanged (any
rejection) or grow by the guarded appends of the success branch. -/
theorem craftCombination_inversion (dict : StorytellingDictionary)
    (s : StorytellingRunState) (cid : String) :
    (craftCombination dict s cid).currentNodeId = s.currentNodeId ∧
    (craftCombination dict s cid).visitedNodeIds = s.visitedNodeIds ∧
    (craftCombination dict s cid).appliedModifierIds = s.appliedModifierIds ∧
    ((craftCombination dict s cid).craftedCombinationIds = s.craftedCombinationIds ∧
        (craftCombination dict s cid).craftedArtifactIds = s.craftedArtifactIds ∨
      cid ∉ s.craftedCombinationIds ∧
        (craftCombination dict s cid).craftedCombinationIds = s.craftedCombinationIds ++ [cid] ∧
        ((craftCombination dict s cid).craftedArtifactIds = s.craftedArtifactIds ∨
          ∃ out, out ∉ s.craftedArtifactIds ∧
            (craftCombination dict s cid).craftedArtifactIds =
              s.craftedArtifactIds ++ [out])) := by
  rcases hc : combinationsById dict cid with _ | combo
  · rw [craftCombination_unknown dict s cid hc]
    exact ⟨rfl, rfl, rfl, Or.inl ⟨rfl, rfl⟩⟩
  · by_cases hmem : cid ∈ s.craftedCombinationIds
    · rw [craftCombination_already dict s cid combo hc hmem]
      exact ⟨rfl, rfl, rfl, Or.inl ⟨rfl, rfl⟩⟩
    · by_cases hex : ∃ x ∈ combo.inputs, hasIngredient s x = false
      · obtain ⟨x, hx, hxf⟩ := hex
        have hmemf : x ∈ combo.inputs.filter fun inputId => !hasIngredient s inputId := by
          simp [List.mem_filter, hx, hxf]
        have hlen : 0 < (combo.inputs.filter fun inputId => !hasIngredient s inputId).length :=
          List.length_pos.mpr fun hnil => by simp [hnil] at hmemf
        rw [craftCombination_blocked dict s cid combo hc hmem hlen]
        exact ⟨rfl, rfl, rfl, Or.inl ⟨rfl, rfl⟩⟩
      · push_neg at hex
        have hnil : (combo.inputs.filter fun inputId => !hasIngredient s inputId) = [] := by
          rw [List.filter_eq_nil_iff]
          intro x hx
          simp [hex x hx]
        rw [craftCombination_success dict s cid combo hc hmem hnil]
        refine ⟨rfl, rfl, rfl, Or.inr ⟨hmem, rfl, ?_⟩⟩
        by_cases hout : combo.output ∈ s.craftedArtifactIds
        · left
          simp [pushHistory, hout]
        · right
          exact ⟨combo.output, hout, by simp [pushHistory, hout]⟩

/-- Inversion for an applyModifier call: only the applied-modifier list can
change, and only by the guarded append of a fresh id. -/
theorem applyModifier_inversion (dict : StorytellingDictionary)
    (s : StorytellingRunState) (mid : String) :
    (applyModifier dict s mid).currentNodeId = s.currentNodeId ∧
    (applyModifier dict s mid).visitedNodeIds = s.visitedNodeIds ∧
    (applyModifier dict s mid).craftedCombinationIds = s.craftedCombinationIds ∧
    (applyModifier dict s mid).craftedArtifactIds = s.craftedArtifactIds ∧
    ((applyModifier dict s mid).appliedModifierIds = s.appliedModifierIds ∨
      mid ∉ s.appliedModifierIds ∧
        (applyModifier dict s mid).appliedModifierIds = s.appliedModifierIds ++ [mid]) := by
  rcases hm : modifiersById dict mid with _ | modifier
  · rw [applyModifier_unknown dict s mid hm]
    exact ⟨rfl, rfl, rfl, rfl, Or.inl rfl⟩
  · by_cases hmem : mid ∈ s.appliedModifierIds
    · rw [applyModifier_already dict s mid modifier hm hmem]
      exact ⟨rfl, rfl, rfl, rfl, Or.inl rfl⟩
    · rw [applyModifier_fresh dict s mid modifier hm hmem]
      exact ⟨rfl, rfl, rfl, rfl, Or.inr ⟨hmem, rfl⟩⟩

/-- Inversion for an addReflection call: neither the node pointer nor any of
the four id lists ever changes. -/
theorem addReflection_inversion (s : StorytellingRunState) (text : String) :
    (addReflection s text).currentNodeId = s.currentNodeId ∧
    (addReflection s text).visitedNodeIds = s.visitedNodeIds ∧
    (addReflection s text).craftedCombinationIds = s.craftedCombinationIds ∧
    (addReflection s text).craftedArtifactIds = s.craftedArtifactIds ∧
    (addReflection s text).appliedModifierIds = s.appliedModifierIds := by
  by_cases h : jsTrim text = ""
  · simp [addReflection, h]
  · simp [addReflection, h, pushHistory]

/-- C7: resetRun always returns exactly the fresh start state, with the start
node current and visited, every other list empty, turn 0 and a single reset
history entry; it reads no prior state. -/
theorem resetRun_fresh_start (rules : StorytellingRules) :
    resetRun rules =
      { currentNodeId := rules.start_node
        visitedNodeIds := [rules.start_node]
        craftedCombinationIds := []
        craftedArtifactIds := []
        appliedModifierIds := []
        reflections := []
        history := [⟨0, HistoryAction.reset, "Run reset to Thought."⟩]
        turn := 0 } :=
  rfl

/-- C8: addReflection with text trimming to empty returns the input state
unchanged with no history entry; with non-empty trimmed text it appends the
trimmed reflection, logs exactly that text as the history detail, and
increments the turn counter. -/
theorem addReflection_spec (state : StorytellingRunState) (text : String) :
    (jsTrim text = "" → addReflection state text = state) ∧
    (jsTrim text ≠ "" →
      addReflection state text =
        { state with
          reflections := state.reflections ++ [jsTrim text]
          history := state.history ++ [⟨state.turn + 1, HistoryAction.reflection, jsTrim text⟩]
          turn := state.turn + 1 }) := by
  constructor
  · intro h
    simp [addReflection, h]
  · intro h
    simp [addReflection, h, pushHistory]

/-- Witness for C8 at the whitespace-only submission `"   "` and at the
submission `"  hi "`, which trims to `"hi"`. -/
theorem addReflection_spec_witness :
    addReflection terminalState "   " = terminalState ∧
    addReflection terminalState "  hi " =
      { terminalState with
        reflections := terminalState.reflections ++ [jsTrim "  hi "]
        history := terminalState.history ++
          [⟨terminalState.turn + 1, HistoryAction.reflection, jsTrim "  hi "⟩]
        turn := terminalState.turn + 1 } :=
  ⟨(addReflection_spec terminalState "   ").1 (by decide),
    (addReflection_spec terminalState "  hi ").2 (by decide)⟩

/-- C9: every component of projectSignalDeltaToImpactAxes is the fixed
hard-coded weighted sum of the delta components rounded to an integer; in
particular sensory activation is round(reach·0.8 + persuasion·0.35 +
distortion·0.2), the weights written below as exact fractions. -/
theorem projectSignalDeltaToImpactAxes_weights (d : SignalProfile) :
    projectSignalDeltaToImpactAxes d =
      { sensory_activation :=
          jsRound (d.reach * (4 / 5) + d.persuasion * (7 / 20) + d.distortion * (1 / 5))
        ease_of_consumption :=
          jsRound (d.reach * (11 / 20) + d.persuasion * (2 / 5)
            - d.distortion * (3 / 10) + d.fidelity * (1 / 4))
        creation_effort :=
          jsRound (d.fidelity * (1 / 2) - d.persuasion * (1 / 5)
            - d.reach * (1 / 4) - d.distortion * (3 / 20)) } := by
  have h8 : (0.8 : ℚ) = 4 / 5 := by norm_num
  have h35 : (0.35 : ℚ) = 7 / 20 := by norm_num
  have h2 : (0.2 : ℚ) = 1 / 5 := by norm_num
  have h55 : (0.55 : ℚ) = 11 / 20 := by norm_num
  have h4 : (0.4 : ℚ) = 2 / 5 := by norm_num
  have h3 : (0.3 : ℚ) = 3 / 10 := by norm_num
  have h25 : (0.25 : ℚ) = 1 / 4 := by norm_num
  have h5 : (0.5 : ℚ) = 1 / 2 := by norm_num
  have h15 : (0.15 : ℚ) = 3 / 20 := by norm_num
  simp [projectSignalDeltaToImpactAxes, h8, h35, h2, h55, h4, h3, h25, h5, h15]

/-- C1 counterexample: the claim asserts that advancing at the terminal stage
leaves the turn counter unchanged, but pushHistory increments it: at the
concrete terminal state the input turn is 0 and the returned turn is 1. -/
theorem advance_at_terminal_changes_turn :
    (advanceOneStep testDict testRules terminalState).map StorytellingRunState.turn ≠
      some terminalState.turn := by
  decide

/-- C1 (amended): every illegal action — advance with no outgoing edge, craft
of an unknown, already-crafted or input-missing recipe, apply of an unknown or
already-applied modifier — returns the input state with exactly one appended
history entry and the turn counter incremented by one, all other fields
untouched; advance at the terminal stage logs the fixed "no further advance"
entry. -/
theorem illegal_actions_append_entry_only (dict : StorytellingDictionary)
    (rules : StorytellingRules) (s : StorytellingRunState) :
    (getNextNodeId rules s.currentNodeId = none →
      advanceOneStep dict rules s =
        some { s with
          history := s.history ++ [⟨s.turn + 1, HistoryAction.advance, noAdvanceDetail⟩]
          turn := s.turn + 1 }) ∧
    (∀ cid : String,
      (combinationsById dict cid = none ∨ cid ∈ s.craftedCombinationIds ∨
        (∃ combo, combinationsById dict cid = some combo ∧
          ∃ i ∈ combo.inputs, hasIngredient s i = false)) →
      ∃ d : String, craftCombination dict s cid =
        { s with
          history := s.history ++ [⟨s.turn + 1, HistoryAction.combination, d⟩]
          turn := s.turn + 1 }) ∧
    (∀ mid : String,
      (modifiersById dict mid = none ∨ mid ∈ s.appliedModifierIds) →
      ∃ d : String, applyModifier dict s mid =
        { s with
          history := s.history ++ [⟨s.turn + 1, HistoryAction.modifier, d⟩]
          turn := s.turn + 1 }) := by
  refine ⟨?_, ?_, ?_⟩
  · intro h
    simp [advanceOneStep, h, pushHistory]
  · rintro cid (hc | hmem | ⟨combo, hc, i, hi, hing⟩)
    · exact ⟨"Unknown combination: " ++ cid, by simp [craftCombination, hc, pushHistory]⟩
    · rcases hc : combinationsById dict cid with _ | combo
      · exact ⟨"Unknown combination: " ++ cid, by simp [craftCombination, hc, pushHistory]⟩
      · exact ⟨combo.label ++ " already crafted.",
          by simp [craftCombination, hc, hmem, pushHistory]⟩
    · by_cases hmem : cid ∈ s.craftedCombinationIds
      · exact ⟨combo.label ++ " already crafted.",
          by simp [craftCombination, hc, hmem, pushHistory]⟩
      · have hmiss : i ∈ combo.inputs.filter fun inputId => !hasIngredient s inputId := by
          simp [List.mem_filter, hi, hing]
        have hlen : 0 < (combo.inputs.filter fun inputId => !hasIngredient s inputId).length :=
          List.length_pos.mpr fun hnil => by simp [hnil] at hmiss
        exact ⟨combo.label ++ " blocked. Missing inputs: " ++
          String.intercalate ", " (combo.inputs.filter fun inputId => !hasIngredient s inputId)
          ++ ".", by simp [craftCombination, hc, hmem, hlen, pushHistory]⟩
  · rintro mid (hm | hmem)
    · exact ⟨"Unknown modifier: " ++ mid, by simp [applyModifier, hm, pushHistory]⟩
    · rcases hm : modifiersById dict mid with _ | modifier
      · exact ⟨"Unknown modifier: " ++ mid, by simp [applyModifier, hm, pushHistory]⟩
      · exact ⟨modifier.label ++ " already applied.",
          by simp [applyModifier, hm, hmem, pushHistory]⟩

/-- Witness for C1: advance at the concrete terminal state appends the fixed
rejection entry; crafting the unknown recipe id "nope" and re-applying the
already-applied modifier "M1" each append one entry and bump the turn. -/
theorem illegal_actions_append_entry_only_witness :
    advanceOneStep testDict testRules terminalState =
      some { terminalState with
        history := terminalState.history ++
          [⟨terminalState.turn + 1, HistoryAction.advance, noAdvanceDetail⟩]
        turn := terminalState.turn + 1 } ∧
    (∃ d : String, craftCombination testDict terminalState "nope" =
      { terminalState with
        history := terminalState.history ++
          [⟨terminalState.turn + 1, HistoryAction.combination, d⟩]
        turn := terminalState.turn + 1 }) ∧
    (∃ d : String, applyModifier testDict loadedState "M1" =
      { loadedState with
        history := loadedState.history ++
          [⟨loadedState.turn + 1, HistoryAction.modifier, d⟩]
        turn := loadedState.turn + 1 }) :=
  ⟨(illegal_actions_append_entry_only testDict testRules terminalState).1 (by decide),
    (illegal_actions_append_entry_only testDict testRules terminalState).2.1 "nope"
      (Or.inl (by decide)),
    (illegal_actions_append_entry_only testDict testRules loadedState).2.2 "M1"
      (Or.inr (by decide))⟩

/-- C6 counterexample: the claim asserts the second identical craft call
returns the first call's state changed only by an appended history entry, but
the turn counter is also incremented: crafting the unknown id "nope" twice
from the concrete terminal state gives turn 2 after the second call and turn 1
after the first. -/
theorem repeat_craft_changes_turn :
    (craftCombination testDict (craftCombination testDict terminalState "nope") "nope").turn ≠
      (craftCombination testDict terminalState "nope").turn := by
  decide

/-- C6 (amended): for every state and ids, a second craftCombination call with
the same recipe id returns the state after the first call changed only by one
appended history entry and a turn increment; the same holds for a second
applyModifier call with the same modifier id. -/
theorem repeated_call_appends_entry_only (dict : StorytellingDictionary)
    (s : StorytellingRunState) (cid mid : String) :
    (∃ d : String, craftCombination dict (craftCombination dict s cid) cid =
      { craftCombination dict s cid with
        history := (craftCombination dict s cid).history ++
          [⟨(craftCombination dict s cid).turn + 1, HistoryAction.combination, d⟩]
        turn := (craftCombination dict s cid).turn + 1 }) ∧
    (∃ d : String, applyModifier dict (applyModifier dict s mid) mid =
      { applyModifier dict s mid with
        history := (applyModifier dict s mid).history ++
          [⟨(applyModifier dict s mid).turn + 1, HistoryAction.modifier, d⟩]
        turn := (applyModifier dict s mid).turn + 1 }) := by
  constructor
  · rcases hc : combinationsById dict cid with _ | combo
    · refine ⟨"Unknown combination: " ++ cid, ?_⟩
      rw [craftCombination_unknown dict s cid hc,
        craftCombination_unknown dict
          (pushHistory s HistoryAction.combination ("Unknown combination: " ++ cid)) cid hc]
      rfl
    · by_cases hmem : cid ∈ s.craftedCombinationIds
      · refine ⟨combo.label ++ " already crafted.", ?_⟩
        rw [craftCombination_already dict s cid combo hc hmem,
          craftCombination_already dict
            (pushHistory s HistoryAction.combination (combo.label ++ " already crafted."))
            cid combo hc hmem]
        rfl
      · by_cases hex : ∃ x ∈ combo.inputs, hasIngredient s x = false
        · obtain ⟨x, hx, hxf⟩ := hex
          have hmemf : x ∈ combo.inputs.filter fun inputId => !hasIngredient s inputId := by
            simp [List.mem_filter, hx, hxf]
          have hlen : 0 < (combo.inputs.filter fun inputId => !hasIngredient s inputId).length :=
            List.length_pos.mpr fun hnil => by simp [hnil] at hmemf
          refine ⟨combo.label ++ " blocked. Missing inputs: " ++ String.intercalate ", "
            (combo.inputs.filter fun inputId => !hasIngredient s inputId) ++ ".", ?_⟩
          rw [craftCombination_blocked dict s cid combo hc hmem hlen,
            craftCombination_blocked dict
              (pushHistory s HistoryAction.combination (combo.label ++
                " blocked. Missing inputs: " ++ String.intercalate ", "
                (combo.inputs.filter fun inputId => !hasIngredient s inputId) ++ "."))
              cid combo hc hmem hlen]
          rfl
        · push_neg at hex
          have hnil : (combo.inputs.filter fun inputId => !hasIngredient s inputId) = [] := by
            rw [List.filter_eq_nil_iff]
            intro x hx
            simp [hex x hx]
          refine ⟨combo.label ++ " already crafted.", ?_⟩
          rw [craftCombination_success dict s cid combo hc hmem hnil]
          have hmem2 : cid ∈ (pushHistory
              { s with
                craftedCombinationIds := s.craftedCombinationIds ++ [cid]
                craftedArtifactIds :=
                  if s.craftedArtifactIds.contains combo.output then s.craftedArtifactIds
                  else s.craftedArtifactIds ++ [combo.output] }
              HistoryAction.combination
              (combo.label ++ " crafted -> " ++ combo.output)).craftedCombinationIds := by
            simp [pushHistory]
          rw [craftCombination_already dict _ cid combo hc hmem2]
          rfl
  · rcases hm : modifiersById dict mid with _ | modifier
    · refine ⟨"Unknown modifier: " ++ mid, ?_⟩
      rw [applyModifier_unknown dict s mid hm,
        applyModifier_unknown dict
          (pushHistory s HistoryAction.modifier ("Unknown modifier: " ++ mid)) mid hm]
      rfl
    · by_cases hmem : mid ∈ s.appliedModifierIds
      · refine ⟨modifier.label ++ " already applied.", ?_⟩
        rw [applyModifier_already dict s mid modifier hm hmem,
          applyModifier_already dict
            (pushHistory s HistoryAction.modifier (modifier.label ++ " already applied."))
            mid modifier hm hmem]
        rfl
      · refine ⟨modifier.label ++ " already applied.", ?_⟩
        rw [applyModifier_fresh dict s mid modifier hm hmem]
        have hmem2 : mid ∈ (pushHistory
            { s with appliedModifierIds := s.appliedModifierIds ++ [mid] }
            HistoryAction.modifier
            ("Distribution modifier applied: " ++ modifier.label)).appliedModifierIds := by
          simp [pushHistory]
        rw [applyModifier_already dict _ mid modifier hm hmem2]
        rfl

/-- C2 counterexample: in the concrete state that has already crafted `R1`,
every input of `R1` is still visited-or-crafted, yet a second
craftCombination call changes neither list, so the claimed equivalence fails
without a not-yet-crafted hypothesis. -/
theorem craft_changes_iff_fails_when_already_crafted :
    (craftCombination testDict craftedOnceState "R1").craftedCombinationIds =
      craftedOnceState.craftedCombinationIds ∧
    (craftCombination testDict craftedOnceState "R1").craftedArtifactIds =
      craftedOnceState.craftedArtifactIds ∧
    (recipeR1.inputs.all fun i => hasIngredient craftedOnceState i) = true := by
  decide

/-- C2 (amended): for every run state and every dictionary recipe that is not
yet crafted in it, craftCombination changes the craftedCombinationIds /
craftedArtifactIds lists if and only if every id in the recipe's inputs is
present in visitedNodeIds ∪ craftedArtifactIds at call time. -/
theorem craftCombination_changes_lists_iff (dict : StorytellingDictionary)
    (s : StorytellingRunState) (cid : String) (combo : CombinationRecipe)
    (hc : combinationsById dict cid = some combo)
    (hnew : cid ∉ s.craftedCombinationIds) :
    ((craftCombination dict s cid).craftedCombinationIds ≠ s.craftedCombinationIds ∨
      (craftCombination dict s cid).craftedArtifactIds ≠ s.craftedArtifactIds) ↔
      ∀ i ∈ combo.inputs, hasIngredient s i = true := by
  constructor
  · intro hchanged
    by_contra hall
    push_neg at hall
    obtain ⟨x, hx, hxf⟩ := hall
    have hxf2 : hasIngredient s x = false := by simpa using hxf
    have hmemf : x ∈ combo.inputs.filter fun inputId => !hasIngredient s inputId := by
      simp [List.mem_filter, hx, hxf2]
    have hlen : 0 < (combo.inputs.filter fun inputId => !hasIngredient s inputId).length :=
      List.length_pos.mpr fun hnil => by simp [hnil] at hmemf
    rw [craftCombination_blocked dict s cid combo hc hnew hlen] at hchanged
    rcases hchanged with hchanged | hchanged <;> exact hchanged rfl
  · intro hall
    have hnil : (combo.inputs.filter fun inputId => !hasIngredient s inputId) = [] := by
      rw [List.filter_eq_nil_iff]
      intro x hx
      simp [hall x hx]
    rw [craftCombination_success dict s cid combo hc hnew hnil]
    left
    simp [pushHistory]

/-- Witness for C2 at the concrete ready state: `R1` is a dictionary recipe,
not yet crafted, and the equivalence holds (here both sides are true: the
craft succeeds because `thought` and `text` are visited). -/
theorem craftCombination_changes_lists_iff_witness :
    combinationsById testDict "R1" = some recipeR1 ∧
    "R1" ∉ readyState.craftedCombinationIds ∧
    (((craftCombination testDict readyState "R1").craftedCombinationIds ≠
        readyState.craftedCombinationIds ∨
      (craftCombination testDict readyState "R1").craftedArtifactIds ≠
        readyState.craftedArtifactIds) ↔
      ∀ i ∈ recipeR1.inputs, hasIngredient readyState i = true) :=
  ⟨rfl, by decide,
    craftCombination_changes_lists_iff testDict readyState "R1" recipeR1 rfl (by decide)⟩

/-- For a well-ordered range, clamping lands inside the range. -/
theorem clamp_bounds (v mn mx : ℚ) (h : mn ≤ mx) :
    mn ≤ clamp v mn mx ∧ clamp v mn mx ≤ mx := by
  unfold clamp
  exact ⟨le_min h (le_max_left mn v), min_le_left mx (max mn v)⟩

/-- C3: whenever computeCurrentSignalProfile returns a profile (that is, the
current node is in the dictionary) and the configured range is well-ordered,
every component of the result lies within [min, max], for any state, however
many large-delta recipes and modifiers it records. -/
theorem computeCurrentSignalProfile_in_range (dict : StorytellingDictionary)
    (rules : StorytellingRules) (s : StorytellingRunState) (p : SignalProfile)
    (hrange : rules.range.min ≤ rules.range.max)
    (hp : computeCurrentSignalProfile dict rules s = some p) :
    (rules.range.min ≤ p.fidelity ∧ p.fidelity ≤ rules.range.max) ∧
    (rules.range.min ≤ p.persuasion ∧ p.persuasion ≤ rules.range.max) ∧
    (rules.range.min ≤ p.reach ∧ p.reach ≤ rules.range.max) ∧
    (rules.range.min ≤ p.distortion ∧ p.distortion ≤ rules.range.max) := by
  rcases hn : getNode dict s.currentNodeId with _ | node
  · rw [computeCurrentSignalProfile, hn] at hp
    cases hp
  · rw [computeCurrentSignalProfile, hn, Option.map_some'] at hp
    cases hp
    exact ⟨clamp_bounds _ _ _ hrange, clamp_bounds _ _ _ hrange,
      clamp_bounds _ _ _ hrange, clamp_bounds _ _ _ hrange⟩

/-- Witness for C3: in the concrete loaded state the huge recipe and modifier
deltas drive fidelity to -60 and persuasion to 615 before clamping, and the
returned profile ⟨0, 100, 72, 0⟩ sits inside [0, 100]. -/
theorem computeCurrentSignalProfile_in_range_witness :
    testRules.range.min ≤ testRules.range.max ∧
    computeCurrentSignalProfile testDict testRules loadedState = some loadedProfile ∧
    ((testRules.range.min ≤ loadedProfile.fidelity ∧
        loadedProfile.fidelity ≤ testRules.range.max) ∧
      (testRules.range.min ≤ loadedProfile.persuasion ∧
        loadedProfile.persuasion ≤ testRules.range.max) ∧
      (testRules.range.min ≤ loadedProfile.reach ∧
        loadedProfile.reach ≤ testRules.range.max) ∧
      (testRules.range.min ≤ loadedProfile.distortion ∧
        loadedProfile.distortion ≤ testRules.range.max)) := by
  have h1 : testRules.range.min ≤ testRules.range.max := by norm_num [testRules]
  have h2 : computeCurrentSignalProfile testDict testRules loadedState = some loadedProfile := by
    simp [computeCurrentSignalProfile, getNode, spineById, combinationsById, modifiersById,
      mapGet, comboStep, modifierStep, addDelta, clampProfile, clamp, loadedState, testDict,
      testRules, nodeThought, nodeText, nodeMath, recipeR1, modifierM1, loadedProfile]
    norm_num [min_def, max_def]
  exact ⟨h1, h2,
    computeCurrentSignalProfile_in_range testDict testRules loadedState loadedProfile h1 h2⟩

/-- Folding the combination accumulation step over a list visits exactly the
entries whose dictionary lookup succeeds: unknown ids can be filtered away
without changing the result. -/
theorem foldl_comboStep_filter (dict : StorytellingDictionary) :
    ∀ (l : List String) (b : SignalProfile),
      l.foldl (comboStep dict) b =
        (l.filter fun i => (combinationsById dict i).isSome).foldl (comboStep dict) b := by
  intro l
  induction l with
  | nil => intro b; rfl
  | cons a t ih =>
    intro b
    rcases hk : combinationsById dict a with _ | c
    · have hb : comboStep dict b a = b := by simp [comboStep, hk]
      have hf : (a :: t).filter (fun i => (combinationsById dict i).isSome) =
          t.filter fun i => (combinationsById dict i).isSome := by
        simp [List.filter_cons, hk]
      rw [List.foldl_cons, hb, hf, ih]
    · have hb : comboStep dict b a = addDelta b c.metric_delta := by simp [comboStep, hk]
      have hf : (a :: t).filter (fun i => (combinationsById dict i).isSome) =
          a :: t.filter fun i => (combinationsById dict i).isSome := by
        simp [List.filter_cons, hk]
      rw [List.foldl_cons, hb, hf, List.foldl_cons, hb, ih]

/-- The same filtering fact for the modifier accumulation step. -/
theorem foldl_modifierStep_filter (dict : StorytellingDictionary) :
    ∀ (l : List String) (b : SignalProfile),
      l.foldl (modifierStep dict) b =
        (l.filter fun i => (modifiersById dict i).isSome).foldl (modifierStep dict) b := by
  intro l
  induction l with
  | nil => intro b; rfl
  | cons a t ih =>
    intro b
    rcases hk : modifiersById dict a with _ | c
    · have hb : modifierStep dict b a = b := by simp [modifierStep, hk]
      have hf : (a :: t).filter (fun i => (modifiersById dict i).isSome) =
          t.filter fun i => (modifiersById dict i).isSome := by
        simp [List.filter_cons, hk]
      rw [List.foldl_cons, hb, hf, ih]
    · have hb : modifierStep dict b a = addDelta b c.metric_delta := by simp [modifierStep, hk]
      have hf : (a :: t).filter (fun i => (modifiersById dict i).isSome) =
          a :: t.filter fun i => (modifiersById dict i).isSome := by
        simp [List.filter_cons, hk]
      rw [List.foldl_cons, hb, hf, List.foldl_cons, hb, ih]

/-- C10: whenever the current node is known to the dictionary,
computeCurrentSignalProfile returns a profile, even if the crafted or applied
lists carry ids absent from the dictionary; removing every unknown id leaves
the profile unchanged, i.e. unknown ids contribute zero delta. -/
theorem computeCurrentSignalProfile_skips_unknown (dict : StorytellingDictionary)
    (rules : StorytellingRules) (s : StorytellingRunState) (node : SpineNode)
    (h : getNode dict s.currentNodeId = some node) :
    ∃ p, computeCurrentSignalProfile dict rules s = some p ∧
      computeCurrentSignalProfile dict rules
        { s with
          craftedCombinationIds :=
            s.craftedCombinationIds.filter fun i => (combinationsById dict i).isSome
          appliedModifierIds :=
            s.appliedModifierIds.filter fun i => (modifiersById dict i).isSome } = some p := by
  refine ⟨clampProfile rules.range
    (s.appliedModifierIds.foldl (modifierStep dict)
      (s.craftedCombinationIds.foldl (comboStep dict) node.signal_profile)), ?_, ?_⟩
  · rw [computeCurrentSignalProfile, h, Option.map_some']
  · have h2 : getNode dict
        ({ s with
          craftedCombinationIds :=
            s.craftedCombinationIds.filter fun i => (combinationsById dict i).isSome
          appliedModifierIds :=
            s.appliedModifierIds.filter fun i => (modifiersById dict i).isSome } :
          StorytellingRunState).currentNodeId = some node := h
    rw [computeCurrentSignalProfile, h2, Option.map_some', Option.some.injEq]
    show clampProfile rules.range
        ((s.appliedModifierIds.filter fun i => (modifiersById dict i).isSome).foldl
          (modifierStep dict)
          ((s.craftedCombinationIds.filter fun i => (combinationsById dict i).isSome).foldl
            (comboStep dict) node.signal_profile)) =
      clampProfile rules.range
        (s.appliedModifierIds.foldl (modifierStep dict)
          (s.craftedCombinationIds.foldl (comboStep dict) node.signal_profile))
    rw [← foldl_comboStep_filter, ← foldl_modifierStep_filter]

/-- Witness for C10 at the concrete loaded state, whose crafted and applied
lists carry the ids ghostCombo and ghostModifier, unknown to the dictionary. -/
theorem computeCurrentSignalProfile_skips_unknown_witness :
    getNode testDict loadedState.currentNodeId = some nodeText ∧
    ∃ p, computeCurrentSignalProfile testDict testRules loadedState = some p ∧
      computeCurrentSignalProfile testDict testRules
        { loadedState with
          craftedCombinationIds :=
            loadedState.craftedCombinationIds.filter
              fun i => (combinationsById testDict i).isSome
          appliedModifierIds :=
            loadedState.appliedModifierIds.filter
              fun i => (modifiersById testDict i).isSome } = some p :=
  ⟨rfl, computeCurrentSignalProfile_skips_unknown testDict testRules loadedState nodeText rfl⟩

/-- C4: in every state reachable from the initial state or a reset by any
sequence of reducer calls, the four id lists visitedNodeIds,
craftedCombinationIds, craftedArtifactIds and appliedModifierIds are free of
duplicates, even under redundant calls with the same argument. -/
theorem reachable_lists_nodup (dict : StorytellingDictionary) (rules : StorytellingRules)
    (s : StorytellingRunState) (h : Reaches dict rules s) :
    s.visitedNodeIds.Nodup ∧ s.craftedCombinationIds.Nodup ∧
      s.craftedArtifactIds.Nodup ∧ s.appliedModifierIds.Nodup := by
  induction h with
  | init => refine ⟨by simp [createInitialState], by simp [createInitialState],
      by simp [createInitialState], by simp [createInitialState]⟩
  | reset => refine ⟨by simp [resetRun, createInitialState],
      by simp [resetRun, createInitialState], by simp [resetRun, createInitialState],
      by simp [resetRun, createInitialState]⟩
  | @advance s1 s2 hr hstep ih =>
    obtain ⟨hcv, hcc, hca, ham⟩ := advanceOneStep_inversion dict rules s1 s2 hstep
    refine ⟨?_, by rw [hcc]; exact ih.2.1, by rw [hca]; exact ih.2.2.1,
      by rw [ham]; exact ih.2.2.2⟩
    rcases hcv with ⟨hcur, hvis⟩ | ⟨nid, hcur, hvis⟩
    · rw [hvis]; exact ih.1
    · rw [hvis]
      by_cases hcon : nid ∈ s1.visitedNodeIds
      · have : (if s1.visitedNodeIds.contains nid = true then s1.visitedNodeIds
            else s1.visitedNodeIds ++ [nid]) = s1.visitedNodeIds := by
          simp [hcon]
        rw [this]
        exact ih.1
      · have : (if s1.visitedNodeIds.contains nid = true then s1.visitedNodeIds
            else s1.visitedNodeIds ++ [nid]) = s1.visitedNodeIds ++ [nid] := by
          simp [hcon]
        rw [this]
        simp [List.nodup_append, ih.1, hcon]
  | craft cid hr ih =>
    obtain ⟨hcur, hvis, happ, hcc⟩ := craftCombination_inversion dict _ cid
    refine ⟨by rw [hvis]; exact ih.1, ?_, ?_, by rw [happ]; exact ih.2.2.2⟩
    · rcases hcc with ⟨hc1, hc2⟩ | ⟨hnm, hc1, hc2⟩
      · rw [hc1]; exact ih.2.1
      · rw [hc1]
        simp [List.nodup_append, ih.2.1, hnm]
    · rcases hcc with ⟨hc1, hc2⟩ | ⟨hnm, hc1, hc2⟩
      · rw [hc2]; exact ih.2.2.1
      · rcases hc2 with hc2 | ⟨out, hout, hc2⟩
        · rw [hc2]; exact ih.2.2.1
        · rw [hc2]
          simp [List.nodup_append, ih.2.2.1, hout]
  | modify mid hr ih =>
    obtain ⟨hcur, hvis, hcc, hca, ham⟩ := applyModifier_inversion dict _ mid
    refine ⟨by rw [hvis]; exact ih.1, by rw [hcc]; exact ih.2.1,
      by rw [hca]; exact ih.2.2.1, ?_⟩
    rcases ham with ham | ⟨hnm, ham⟩
    · rw [ham]; exact ih.2.2.2
    · rw [ham]
      simp [List.nodup_append, ih.2.2.2, hnm]
  | reflect text hr ih =>
    obtain ⟨hcur, hvis, hcc, hca, ham⟩ := addReflection_inversion _ text
    exact ⟨by rw [hvis]; exact ih.1, by rw [hcc]; exact ih.2.1,
      by rw [hca]; exact ih.2.2.1, by rw [ham]; exact ih.2.2.2⟩

/-- Witness for C4 at the concrete reachable state obtained by advancing once
from the initial state and then crafting R1. -/
theorem reachable_lists_nodup_witness :
    (craftCombination testDict advancedOnce "R1").visitedNodeIds.Nodup ∧
    (craftCombination testDict advancedOnce "R1").craftedCombinationIds.Nodup ∧
    (craftCombination testDict advancedOnce "R1").craftedArtifactIds.Nodup ∧
    (craftCombination testDict advancedOnce "R1").appliedModifierIds.Nodup :=
  reachable_lists_nodup testDict testRules (craftCombination testDict advancedOnce "R1")
    (Reaches.craft "R1" (Reaches.advance Reaches.init (by decide)))

/-- C5: in every state reachable from the initial state or a reset by any
sequence of reducer calls, currentNodeId is a member of visitedNodeIds. -/
theorem reachable_current_visited (dict : StorytellingDictionary) (rules : StorytellingRules)
    (s : StorytellingRunState) (h : Reaches dict rules s) :
    s.currentNodeId ∈ s.visitedNodeIds := by
  induction h with
  | init => simp [createInitialState]
  | reset => simp [resetRun, createInitialState]
  | @advance s1 s2 hr hstep ih =>
    obtain ⟨hcv, hcc, hca, ham⟩ := advanceOneStep_inversion dict rules s1 s2 hstep
    rcases hcv with ⟨hcur, hvis⟩ | ⟨nid, hcur, hvis⟩
    · rw [hcur, hvis]; exact ih
    · rw [hcur, hvis]
      by_cases hcon : nid ∈ s1.visitedNodeIds
      · simp [hcon]
      · have : (if s1.visitedNodeIds.contains nid = true then s1.visitedNodeIds
            else s1.visitedNodeIds ++ [nid]) = s1.visitedNodeIds ++ [nid] := by
          simp [hcon]
        rw [this]
        simp
  | craft cid hr ih =>
    obtain ⟨hcur, hvis, happ, hcc⟩ := craftCombination_inversion dict _ cid
    rw [hcur, hvis]; exact ih
  | modify mid hr ih =>
    obtain ⟨hcur, hvis, hcc, hca, ham⟩ := applyModifier_inversion dict _ mid
    rw [hcur, hvis]; exact ih
  | reflect text hr ih =>
    obtain ⟨hcur, hvis, hcc, hca, ham⟩ := addReflection_inversion _ text
    rw [hcur, hvis]; exact ih

/-- Witness for C5 at the concrete reachable state obtained by advancing once
from the initial state. -/
theorem reachable_current_visited_witness :
    advancedOnce.currentNodeId ∈ advancedOnce.visitedNodeIds :=
  reachable_current_visited testDict testRules advancedOnce
    (Reaches.advance Reaches.init (by decide))

end StorytellingGame
